import Mathlib

/-!
# Verification of the update_check_api core pipeline

Shallow embedding of the GPUOpen-Tools/update_check_api repository
(`update_check_api.cpp` / `update_check_api.h` and their older
`UpdateCheckApi.cpp` twins), covering:

* the 4-component `VersionInfo` value and its `Compare` operation;
* the JSON manifest parsers for schema versions 1.3, 1.5 and 1.6,
  over an explicit JSON value type modelling the nlohmann document
  (`find` on non-objects yields end, `get` on a wrong type throws,
  iteration over a primitive yields the single value, `empty()` is
  true for null and for empty arrays/objects);
* the 1.5 → 1.6 schema upgrade (`ConvertJsonSchema_1_5_To_1_6`);
* the platform filter and the update-availability scan;
* the `RDTS_UPDATER_ASSUME_VERSION` environment override; and
* the orchestrating `CheckForUpdates` entry point, with the external
  transport (download helper / file read) abstracted as a function
  argument producing the manifest text.

C++ `uint32_t` fields are modelled as `Nat`; the `get<uint32_t>`
JSON accessor reduces modulo `2^32` as the C++ conversion does.
Out-parameter error accumulation (`std::string& errorMessage`,
append-only) is modelled by returning the list of appended messages,
with the message constants represented by an enumeration `ErrMsg`.
C++ locals that are read before ever being written (default-initialized
`uint32_t` / enum members, which hold indeterminate values) are modelled
by threading an explicit initial value (`v0`, `t0`) through the parsers.
-/

namespace UpdateCheck

/-- `TargetPlatform` from update_check_api.h. -/
inductive TargetPlatform where
  | kUnknown
  | kWindows
  | kUbuntu
  | kRhel
  | kDarwin
  deriving DecidableEq, Repr

/-- `PackageType` from update_check_api.h. -/
inductive PackageType where
  | kUnknown
  | kZip
  | kMsi
  | kTar
  | kRpm
  | kDebian
  deriving DecidableEq, Repr

/-- `ReleaseType` from update_check_api.h. -/
inductive ReleaseType where
  | kUnknown
  | kGeneralAvailability
  | kBeta
  | kAlpha
  | kPatch
  | kDevelopment
  deriving DecidableEq, Repr

/-- `VersionInfo` from update_check_api.h: four `uint32_t` components. -/
structure VersionInfo where
  major : Nat
  minor : Nat
  patch : Nat
  build : Nat
  deriving DecidableEq, Repr

/-- `kNewer` (`NEWER`): result of `Compare` when `this` is newer. -/
def kNewer : Int := 1

/-- `kOlder` (`OLDER`): result of `Compare` when `this` is older. -/
def kOlder : Int := -1

/-- `kEqual` (`EQUAL`): result of `Compare` when the versions agree. -/
def kEqual : Int := 0

/-- `VersionInfo::Compare` from update_check_api.cpp: nested
major/minor/patch/build comparison returning 1, -1 or 0. -/
def VersionInfo.Compare (v other : VersionInfo) : Int :=
  if v.major > other.major then kNewer
  else if v.major < other.major then kOlder
  else if v.minor > other.minor then kNewer
  else if v.minor < other.minor then kOlder
  else if v.patch > other.patch then kNewer
  else if v.patch < other.patch then kOlder
  else if v.build > other.build then kNewer
  else if v.build < other.build then kOlder
  else kEqual

/-- `InfoPageLink` from update_check_api.h. -/
structure InfoPageLink where
  url : String
  page_description : String
  deriving DecidableEq, Repr

/-- `DownloadLink` from update_check_api.h (the schema-1.6-only
`package_name` defaults to the empty string, as a default-constructed
`std::string` does). -/
structure DownloadLink where
  url : String
  package_type : PackageType
  package_name : String
  deriving DecidableEq, Repr

/-- `ReleaseInfo` from update_check_api.h. -/
structure ReleaseInfo where
  version : VersionInfo
  date : String
  title : String
  target_platforms : List TargetPlatform
  type : ReleaseType
  tags : List String
  download_links : List DownloadLink
  info_links : List InfoPageLink
  deriving DecidableEq, Repr

/-- `UpdateInfo` from update_check_api.h. -/
structure UpdateInfo where
  is_update_available : Bool
  releases : List ReleaseInfo
  deriving DecidableEq, Repr

/-- `UpdatePackage_1_5` from update_check_api.cpp. -/
structure UpdatePackage_1_5 where
  url : String
  package_type : PackageType
  release_type : ReleaseType
  target_platforms : List TargetPlatform
  deriving DecidableEq, Repr

/-- `UpdateInfo_1_5` from update_check_api.cpp.  The never-read
`is_update_available` member is omitted. -/
structure UpdateInfo_1_5 where
  release_version : VersionInfo
  release_date : String
  release_description : String
  available_packages : List UpdatePackage_1_5
  info_links : List InfoPageLink
  deriving DecidableEq, Repr

/-- `UpdateCheck::TargetPlatformToString` from update_check_api.cpp. -/
def TargetPlatformToString : TargetPlatform → String
  | .kUnknown => "Unknown"
  | .kWindows => "Windows"
  | .kUbuntu => "Ubuntu"
  | .kRhel => "RHEL"
  | .kDarwin => "Darwin"

/-- `UpdateCheck::ReleaseTypeToString` from update_check_api.cpp. -/
def ReleaseTypeToString : ReleaseType → String
  | .kUnknown => "Unknown"
  | .kGeneralAvailability => "GA"
  | .kBeta => "Beta"
  | .kAlpha => "Alpha"
  | .kPatch => "Patch"
  | .kDevelopment => "Development"

/-- Error-message constants of UpdateCheckApiStrings.h /
update_check_api_strings.h, as an enumeration.  The C++ accumulates
them by appending to a `std::string&`; the model appends them to a
`List ErrMsg`. -/
inductive ErrMsg where
  | urlMustPointToAJsonFile
  | failedToLaunchDownloader
  | downloadedAnEmptyVersionFile
  | failedToLoadVersionFile
  | missingSchemaVersionEntry
  | unsupportedSchemaVersion
  | failedToParseVersionFile
  | unableToConvert1_3To1_6
  | unableToConvert1_5To1_6
  | invalidVersionNumberProvided
  | missingVersionStringEntry
  | missingReleaseDateEntry
  | missingDescriptionEntry
  | missingInfoPageUrlEntry
  | emptyInfoPageUrlList
  | incompleteInfoPageUrlEntry
  | missingDownloadUrlEntry
  | emptyDownloadUrlList
  | invalidDownloadUrlTargetInfoValue
  | incompleteDownloadUrlEntry
  | missingReleaseVersionEntry
  | missingReleaseDescriptionEntry
  | missingInfoPageLinksEntry
  | emptyInfoPageLinksList
  | incompleteInfoPageLinksEntry
  | missingDownloadLinksEntry
  | emptyDownloadLinksList
  | missingDownloadLinksUrlEntry
  | missingDownloadLinksTargetPlatformsEntry
  | missingDownloadLinksPackageTypeEntry
  | missingDownloadLinksReleaseTypeEntry
  | invalidDownloadLinksReleaseTypeValue
  | invalidDownloadLinksPackageTypeValue
  | emptyDownloadLinksTargetPlatformsList
  | invalidDownloadLinksTargetPlatformValue
  | missingReleasesEntry
  | emptyReleasesList
  | missingReleaseTitleEntry
  | missingReleaseTypeEntry
  | invalidReleaseTypeValue
  | missingReleasePlatformsEntry
  | emptyReleasePlatformsList
  | invalidReleasePlatformsValue
  | missingReleaseTagsEntry
  deriving DecidableEq, Repr

/-- Exceptions thrown by the nlohmann `get<T>` accessors on a value of
the wrong JSON type (caught by the `try`/`catch` in `ParseJsonString`). -/
inductive JsonExn where
  | typeErrorString
  | typeErrorNumber
  deriving DecidableEq, Repr

/-- C `isspace` in the default locale, as used by `sscanf` and
`std::stringstream` extraction. -/
def cIsSpace (c : Char) : Bool :=
  c = ' ' || c = '\t' || c = '\n' || c = '\x0b' || c = '\x0c' || c = '\r'

/-- Drop leading whitespace, as numeric extraction does. -/
def skipWs : List Char → List Char
  | [] => []
  | c :: cs => if cIsSpace c then skipWs cs else c :: cs

/-- Numeric value of a digit string (most significant first). -/
def digitsToNat (ds : List Char) : Nat :=
  ds.foldl (fun acc c => 10 * acc + (c.toNat - '0'.toNat)) 0

/-- One `%u` conversion of `sscanf`: skip whitespace, consume one or
more digits, value taken modulo `2^32` (the strtoul sign/overflow corner
cases of the C library are outside the model). -/
def scanFieldU (cs : List Char) : Option (Nat × List Char) :=
  let rest := skipWs cs
  let ds := rest.takeWhile Char.isDigit
  if ds.isEmpty then none
  else some (digitsToNat ds % 2 ^ 32, rest.dropWhile Char.isDigit)

/-- A literal `.` in a `sscanf` format: matches exactly the next input
character, with no whitespace skip. -/
def matchDot : List Char → Option (List Char)
  | '.' :: cs => some cs
  | _ => none

/-- `sscanf(version, "%u.%u.%u.%u", &major, &minor, &patch, &build)`
over fields previously zeroed by `SplitVersionString_1_3`: returns the
number of completed conversions and the resulting fields (`EOF` and a
zero-conversion result both map to count 0). -/
def sscanf_u4 (s : String) : Nat × VersionInfo :=
  match scanFieldU s.toList with
  | none => (0, ⟨0, 0, 0, 0⟩)
  | some (a, r1) =>
    match matchDot r1 with
    | none => (1, ⟨a, 0, 0, 0⟩)
    | some r2 =>
      match scanFieldU r2 with
      | none => (1, ⟨a, 0, 0, 0⟩)
      | some (b, r3) =>
        match matchDot r3 with
        | none => (2, ⟨a, b, 0, 0⟩)
        | some r4 =>
          match scanFieldU r4 with
          | none => (2, ⟨a, b, 0, 0⟩)
          | some (c, r5) =>
            match matchDot r5 with
            | none => (3, ⟨a, b, c, 0⟩)
            | some r6 =>
              match scanFieldU r6 with
              | none => (3, ⟨a, b, c, 0⟩)
              | some (d, _) => (4, ⟨a, b, c, d⟩)

/-- `SplitVersionString_1_3` from update_check_api.cpp.  `v0` is the
value the version fields held on entry (they are only zeroed on the
non-empty path, before the scan). -/
def SplitVersionString_1_3 (version : String) (v0 : VersionInfo) :
    Bool × List ErrMsg × VersionInfo :=
  if version.isEmpty then (false, [], v0)
  else
    let (n, v) := sscanf_u4 version
    if n = 0 || n > 4 then (false, [.invalidVersionNumberProvided], v)
    else (true, [], v)

/-- `std::stringstream` extraction into a `uint32_t`
(`ss >> version.major`): skip whitespace, consume one or more digits;
overflow past `uint32_t` sets the fail state (sign handling of the C++
locale is outside the model). -/
def extractU32 (cs : List Char) : Option (Nat × List Char) :=
  let rest := skipWs cs
  let ds := rest.takeWhile Char.isDigit
  if ds.isEmpty then none
  else if digitsToNat ds ≥ 2 ^ 32 then none
  else some (digitsToNat ds, rest.dropWhile Char.isDigit)

/-- `std::stringstream` extraction into a `char` (`ss >> dot`): skip
whitespace, take the next character. -/
def extractChar : List Char → Option (Char × List Char) :=
  fun cs =>
    match skipWs cs with
    | [] => none
    | c :: rest => some (c, rest)

/-- `ParseVersionString` from update_check_api.cpp: succeeds when the
stream yields number, `'.'`, number, `'.'`, number, `'.'`, number (any
trailing characters are ignored, as the C++ performs no further read). -/
def ParseVersionString (version_str : String) : Option VersionInfo := do
  let (major, r1) ← extractU32 version_str.toList
  let (d1, r2) ← extractChar r1
  if d1 ≠ '.' then none else
  let (minor, r3) ← extractU32 r2
  let (d2, r4) ← extractChar r3
  if d2 ≠ '.' then none else
  let (patch, r5) ← extractU32 r4
  let (d3, r6) ← extractChar r5
  if d3 ≠ '.' then none else
  let (build, _) ← extractU32 r6
  some ⟨major, minor, patch, build⟩

/-- `GetToolVersion` from update_check_api.cpp: `env` is the value of
the `RDTS_UPDATER_ASSUME_VERSION` environment variable (`none` when
unset), `v0` the caller's `version` memory on entry.  Returns `true`
exactly when the variable is set; an unparsable value falls back to
`1.0.0.0`. -/
def GetToolVersion (env : Option String) (v0 : VersionInfo) :
    Bool × VersionInfo :=
  match env with
  | none => (false, v0)
  | some tool_version =>
    match ParseVersionString tool_version with
    | some v => (true, v)
    | none => (true, ⟨1, 0, 0, 0⟩)

/-- The reference-version selection block of `CheckForUpdates`
(update_check_api.cpp): a local `version_to_compare` (entry value `v0`)
is filled by `GetToolVersion`, and replaced by the caller-supplied
`product_version` when the environment variable is unset. -/
def VersionToCompare (env : Option String) (v0 product_version : VersionInfo) :
    VersionInfo :=
  match GetToolVersion env v0 with
  | (true, v) => v
  | (false, _) => product_version

/-- The JSON document model: the nlohmann value shape relevant to the
manifest parsers.  Numbers in manifests are non-negative integers. -/
inductive Json where
  | null
  | boolean (b : Bool)
  | num (n : Nat)
  | str (s : String)
  | arr (elems : List Json)
  | obj (fields : List (String × Json))

/-- Key lookup in an object's field list (nlohmann objects have unique
keys). -/
def lookupField : List (String × Json) → String → Option Json
  | [], _ => none
  | (k, v) :: rest, key => if k = key then some v else lookupField rest key

/-- `json::find`: key lookup on objects; `end()` (here `none`) on every
other value type. -/
def Json.find? : Json → String → Option Json
  | .obj fields, key => lookupField fields key
  | _, _ => none

/-- `get<std::string>`: throws `type_error` on non-strings. -/
def Json.getString : Json → Except JsonExn String
  | .str s => .ok s
  | _ => .error .typeErrorString

/-- `get<uint32_t>`: throws `type_error` on non-numbers; the stored
integer converts modulo `2^32`. -/
def Json.getU32 : Json → Except JsonExn Nat
  | .num n => .ok (n % 2 ^ 32)
  | _ => .error .typeErrorNumber

/-- `json::empty()`: true for null and for arrays/objects with no
elements, false for every other value. -/
def Json.isEmptyVal : Json → Bool
  | .null => true
  | .arr xs => xs.isEmpty
  | .obj fs => fs.isEmpty
  | _ => false

/-- `begin()`/`end()` iteration: array elements, object mapped values,
nothing for null, and the single value itself for other primitives. -/
def Json.elems : Json → List Json
  | .arr xs => xs
  | .obj fs => fs.map Prod.snd
  | .null => []
  | x => [x]

/-- `SplitVersionString_1_5` from update_check_api.cpp: fails (with the
invalid-version message) exactly when none of Major/Minor/Patch/Build is
present; each present sub-field is read with `get<uint32_t>`, and each
absent sub-field leaves the corresponding component of the entry value
`v0` untouched (the C++ never initializes them). -/
def SplitVersionString_1_5 (json_doc : Json) (v0 : VersionInfo) :
    Except JsonExn (Bool × List ErrMsg × VersionInfo) := do
  let jMajor := json_doc.find? "Major"
  let jMinor := json_doc.find? "Minor"
  let jPatch := json_doc.find? "Patch"
  let jBuild := json_doc.find? "Build"
  if jMajor.isNone && jMinor.isNone && jPatch.isNone && jBuild.isNone then
    return (false, [.invalidVersionNumberProvided], v0)
  else
    let major ← match jMajor with | some j => j.getU32 | none => pure v0.major
    let minor ← match jMinor with | some j => j.getU32 | none => pure v0.minor
    let patch ← match jPatch with | some j => j.getU32 | none => pure v0.patch
    let build ← match jBuild with | some j => j.getU32 | none => pure v0.build
    return (true, [], ⟨major, minor, patch, build⟩)

/-- `GetPackageType_1_3` from update_check_api.cpp: the five accepted
`TargetInfo` tokens and their (platform, package type) translation;
unrecognized tokens yield `(false, kUnknown, kUnknown)`. -/
def GetPackageType_1_3 (package_string : String) :
    Bool × TargetPlatform × PackageType :=
  if package_string = "Windows_ZIP" then (true, .kWindows, .kZip)
  else if package_string = "Windows_MSI" then (true, .kWindows, .kMsi)
  else if package_string = "Linux_TAR" then (true, .kUbuntu, .kTar)
  else if package_string = "Linux_RPM" then (true, .kUbuntu, .kRpm)
  else if package_string = "Linux_Debian" then (true, .kUbuntu, .kDebian)
  else (false, .kUnknown, .kUnknown)

/-- `GetPackageType_1_5` from update_check_api.cpp. -/
def GetPackageType_1_5 (package_string : String) : Bool × PackageType :=
  if package_string = "ZIP" then (true, .kZip)
  else if package_string = "MSI" then (true, .kMsi)
  else if package_string = "TAR" then (true, .kTar)
  else if package_string = "RPM" then (true, .kRpm)
  else if package_string = "Debian" then (true, .kDebian)
  else (false, .kUnknown)

/-- `GetReleaseType_1_5` from update_check_api.cpp. -/
def GetReleaseType_1_5 (release_type_string : String) : Bool × ReleaseType :=
  if release_type_string = "GA" then (true, .kGeneralAvailability)
  else if release_type_string = "Beta" then (true, .kBeta)
  else if release_type_string = "Alpha" then (true, .kAlpha)
  else if release_type_string = "Patch" then (true, .kPatch)
  else if release_type_string = "Development" then (true, .kDevelopment)
  else (false, .kUnknown)

/-- `GetReleaseType_1_6`: unchanged from schema 1.5. -/
def GetReleaseType_1_6 : String → Bool × ReleaseType :=
  GetReleaseType_1_5

/-- `GetPackageType_1_6`: unchanged from schema 1.5. -/
def GetPackageType_1_6 : String → Bool × PackageType :=
  GetPackageType_1_5

/-- The platform-token recognition chain shared (textually duplicated in
the source) by `GetTargetPlatform_1_5` and `GetReleasePlatform_1_6`. -/
def platformFromString (s : String) : Option TargetPlatform :=
  if s = "Windows" then some .kWindows
  else if s = "Ubuntu" then some .kUbuntu
  else if s = "RHEL" then some .kRhel
  else if s = "Darwin" then some .kDarwin
  else none

/-- The element loop of `GetTargetPlatform_1_5` / `GetReleasePlatform_1_6`:
recognized platforms are appended in order; the first unrecognized token
appends `invalidMsg` and breaks with a false flag (keeping the platforms
already pushed, as the C++ out-parameter does). -/
def platformListLoop (invalidMsg : ErrMsg) :
    List Json → Except JsonExn (Bool × List ErrMsg × List TargetPlatform)
  | [] => .ok (true, [], [])
  | p :: rest =>
    match p.getString with
    | .error ex => .error ex
    | .ok s =>
      match platformFromString s with
      | some tp =>
        match platformListLoop invalidMsg rest with
        | .error ex => .error ex
        | .ok (ok, msgs, tps) => .ok (ok, msgs, tp :: tps)
      | none => .ok (false, [invalidMsg], [])

/-- `GetTargetPlatform_1_5` from update_check_api.cpp: an empty
`TargetPlatforms` list is rejected with its own message. -/
def GetTargetPlatform_1_5 (target_platforms_json : Json) :
    Except JsonExn (Bool × List ErrMsg × List TargetPlatform) :=
  if target_platforms_json.isEmptyVal then
    .ok (false, [.emptyDownloadLinksTargetPlatformsList], [])
  else
    platformListLoop .invalidDownloadLinksTargetPlatformValue
      target_platforms_json.elems

/-- `GetReleasePlatform_1_6` from update_check_api.cpp: identical loop
with the `ReleasePlatforms` message vocabulary. -/
def GetReleasePlatform_1_6 (target_platforms_json : Json) :
    Except JsonExn (Bool × List ErrMsg × List TargetPlatform) :=
  if target_platforms_json.isEmptyVal then
    .ok (false, [.emptyReleasePlatformsList], [])
  else
    platformListLoop .invalidReleasePlatformsValue target_platforms_json.elems

/-- The `InfoPageURL` / `InfoPageLinks` element loop shared by the three
schema parsers (keys `URL` and `Description`): complete entries are
collected in order, incomplete ones append `incompleteMsg` and clear the
parsed flag without stopping the loop. -/
def infoPageLoop (incompleteMsg : ErrMsg) :
    List Json → Except JsonExn (Bool × List ErrMsg × List InfoPageLink)
  | [] => .ok (true, [], [])
  | e :: rest =>
    match e.find? "URL", e.find? "Description" with
    | some uj, some dj =>
      match uj.getString with
      | .error ex => .error ex
      | .ok u =>
        match dj.getString with
        | .error ex => .error ex
        | .ok d =>
          match infoPageLoop incompleteMsg rest with
          | .error ex => .error ex
          | .ok (ok, msgs, links) => .ok (ok, msgs, ⟨u, d⟩ :: links)
    | _, _ =>
      match infoPageLoop incompleteMsg rest with
      | .error ex => .error ex
      | .ok (_, msgs, links) => .ok (false, incompleteMsg :: msgs, links)

/-- The `DownloadURL` element loop of `ParseJsonSchema_1_3` (keys `URL`
and `TargetInfo`): each valid entry becomes an `UpdatePackage_1_5` with
the single platform and package type given by `GetPackageType_1_3` and
release type forced to `kGeneralAvailability`. -/
def downloadUrlLoop_1_3 :
    List Json → Except JsonExn (Bool × List ErrMsg × List UpdatePackage_1_5)
  | [] => .ok (true, [], [])
  | e :: rest =>
    match e.find? "URL", e.find? "TargetInfo" with
    | some uj, some tj =>
      match tj.getString with
      | .error ex => .error ex
      | .ok target =>
        match GetPackageType_1_3 target with
        | (true, platform, ptype) =>
          match uj.getString with
          | .error ex => .error ex
          | .ok u =>
            match downloadUrlLoop_1_3 rest with
            | .error ex => .error ex
            | .ok (ok, msgs, pkgs) =>
              .ok (ok, msgs, ⟨u, ptype, .kGeneralAvailability, [platform]⟩ :: pkgs)
        | (false, _, _) =>
          match downloadUrlLoop_1_3 rest with
          | .error ex => .error ex
          | .ok (_, msgs, pkgs) =>
            .ok (false, .invalidDownloadUrlTargetInfoValue :: msgs, pkgs)
    | _, _ =>
      match downloadUrlLoop_1_3 rest with
      | .error ex => .error ex
      | .ok (_, msgs, pkgs) =>
        .ok (false, .incompleteDownloadUrlEntry :: msgs, pkgs)

/-- A mandatory string field: missing yields `missingMsg` and leaves the
member at its default (empty string); present values are read with
`get<std::string>`.  This is the shape shared by the date, description
and title sections of the three parsers. -/
def getStringField (json_doc : Json) (key : String) (missingMsg : ErrMsg) :
    Except JsonExn (Bool × List ErrMsg × String) :=
  match json_doc.find? key with
  | none => .ok (false, [missingMsg], "")
  | some dj =>
    match dj.getString with
    | .error ex => .error ex
    | .ok d => .ok (true, [], d)

/-- A mandatory non-empty list field processed by `loop`: the shape
shared by the `InfoPageURL`/`InfoPageLinks`/`DownloadURL`/`DownloadLinks`
sections. -/
def jsonListSection {β : Type} (json_doc : Json) (key : String)
    (missingMsg emptyMsg : ErrMsg)
    (loop : List Json → Except JsonExn (Bool × List ErrMsg × List β)) :
    Except JsonExn (Bool × List ErrMsg × List β) :=
  match json_doc.find? key with
  | none => .ok (false, [missingMsg], [])
  | some lj =>
    if lj.isEmptyVal then .ok (false, [emptyMsg], [])
    else loop lj.elems

/-- The `VersionString` section of `ParseJsonSchema_1_3`. -/
def versionStringSection_1_3 (json_doc : Json) (v0 : VersionInfo) :
    Except JsonExn (Bool × List ErrMsg × VersionInfo) :=
  match json_doc.find? "VersionString" with
  | none => .ok (false, [.missingVersionStringEntry], v0)
  | some vj =>
    match vj.getString with
    | .error ex => .error ex
    | .ok s => .ok (SplitVersionString_1_3 s v0)

/-- `ParseJsonSchema_1_3` from update_check_api.cpp: the five sections,
each contributing its error messages in order; `v0` is the entry value
of the never-initialized `release_version` member. -/
def ParseJsonSchema_1_3 (json_doc : Json) (v0 : VersionInfo) :
    Except JsonExn (Bool × List ErrMsg × UpdateInfo_1_5) := do
  let (ok1, msgs1, ver) ← versionStringSection_1_3 json_doc v0
  let (ok2, msgs2, date) ←
    getStringField json_doc "ReleaseDate" .missingReleaseDateEntry
  let (ok3, msgs3, descr) ←
    getStringField json_doc "Description" .missingDescriptionEntry
  let (ok4, msgs4, infoLinks) ←
    jsonListSection json_doc "InfoPageURL" .missingInfoPageUrlEntry
      .emptyInfoPageUrlList (infoPageLoop .incompleteInfoPageUrlEntry)
  let (ok5, msgs5, packages) ←
    jsonListSection json_doc "DownloadURL" .missingDownloadUrlEntry
      .emptyDownloadUrlList downloadUrlLoop_1_3
  return (ok1 && ok2 && ok3 && ok4 && ok5,
          msgs1 ++ msgs2 ++ msgs3 ++ msgs4 ++ msgs5,
          ⟨ver, date, descr, packages, infoLinks⟩)

/-- The `DownloadLinks` element loop of `ParseJsonSchema_1_5`: the four
sub-fields are mandatory (checked in the order URL, TargetPlatforms,
PackageType, ReleaseType), then the release type, package type and
target platforms are validated in that order, and only then is the URL
read and the package appended. -/
def downloadLinksLoop_1_5 :
    List Json → Except JsonExn (Bool × List ErrMsg × List UpdatePackage_1_5)
  | [] => .ok (true, [], [])
  | e :: rest =>
    match e.find? "URL", e.find? "TargetPlatforms",
        e.find? "PackageType", e.find? "ReleaseType" with
    | none, _, _, _ =>
      match downloadLinksLoop_1_5 rest with
      | .error ex => .error ex
      | .ok (_, msgs, pkgs) =>
        .ok (false, .missingDownloadLinksUrlEntry :: msgs, pkgs)
    | some _, none, _, _ =>
      match downloadLinksLoop_1_5 rest with
      | .error ex => .error ex
      | .ok (_, msgs, pkgs) =>
        .ok (false, .missingDownloadLinksTargetPlatformsEntry :: msgs, pkgs)
    | some _, some _, none, _ =>
      match downloadLinksLoop_1_5 rest with
      | .error ex => .error ex
      | .ok (_, msgs, pkgs) =>
        .ok (false, .missingDownloadLinksPackageTypeEntry :: msgs, pkgs)
    | some _, some _, some _, none =>
      match downloadLinksLoop_1_5 rest with
      | .error ex => .error ex
      | .ok (_, msgs, pkgs) =>
        .ok (false, .missingDownloadLinksReleaseTypeEntry :: msgs, pkgs)
    | some uj, some pj, some ptj, some rtj =>
      match rtj.getString with
      | .error ex => .error ex
      | .ok rts =>
        match GetReleaseType_1_5 rts with
        | (false, _) =>
          match downloadLinksLoop_1_5 rest with
          | .error ex => .error ex
          | .ok (_, msgs, pkgs) =>
            .ok (false, .invalidDownloadLinksReleaseTypeValue :: msgs, pkgs)
        | (true, rt) =>
          match ptj.getString with
          | .error ex => .error ex
          | .ok pts =>
            match GetPackageType_1_5 pts with
            | (false, _) =>
              match downloadLinksLoop_1_5 rest with
              | .error ex => .error ex
              | .ok (_, msgs, pkgs) =>
                .ok (false, .invalidDownloadLinksPackageTypeValue :: msgs, pkgs)
            | (true, pt) =>
              match GetTargetPlatform_1_5 pj with
              | .error ex => .error ex
              | .ok (false, msgsTp, _) =>
                match downloadLinksLoop_1_5 rest with
                | .error ex => .error ex
                | .ok (_, msgs, pkgs) => .ok (false, msgsTp ++ msgs, pkgs)
              | .ok (true, msgsTp, tps) =>
                match uj.getString with
                | .error ex => .error ex
                | .ok u =>
                  match downloadLinksLoop_1_5 rest with
                  | .error ex => .error ex
                  | .ok (ok, msgs, pkgs) =>
                    .ok (ok, msgsTp ++ msgs, ⟨u, pt, rt, tps⟩ :: pkgs)

/-- `ParseJsonSchema_1_5` from update_check_api.cpp: the five sections
in source order, each contributing its error messages; `v0` is the entry
value of the never-initialized `release_version` member. -/
def ParseJsonSchema_1_5 (json_doc : Json) (v0 : VersionInfo) :
    Except JsonExn (Bool × List ErrMsg × UpdateInfo_1_5) := do
  let (ok1, msgs1, ver) ←
    match json_doc.find? "ReleaseVersion" with
    | none => pure (false, [ErrMsg.missingReleaseVersionEntry], v0)
    | some vj => SplitVersionString_1_5 vj v0
  let (ok2, msgs2, date) ←
    getStringField json_doc "ReleaseDate" .missingReleaseDateEntry
  let (ok3, msgs3, descr) ←
    getStringField json_doc "ReleaseDescription" .missingReleaseDescriptionEntry
  let (ok4, msgs4, infoLinks) ←
    jsonListSection json_doc "InfoPageLinks" .missingInfoPageLinksEntry
      .emptyInfoPageLinksList (infoPageLoop .incompleteInfoPageLinksEntry)
  let (ok5, msgs5, packages) ←
    jsonListSection json_doc "DownloadLinks" .missingDownloadLinksEntry
      .emptyDownloadLinksList downloadLinksLoop_1_5
  return (ok1 && ok2 && ok3 && ok4 && ok5,
          msgs1 ++ msgs2 ++ msgs3 ++ msgs4 ++ msgs5,
          ⟨ver, date, descr, packages, infoLinks⟩)

/-- The de-duplication key of a canonical release: its
(target platforms, release type) pair. -/
def relKey (r : ReleaseInfo) : List TargetPlatform × ReleaseType :=
  (r.target_platforms, r.type)

/-- The de-duplication key of a 1.5 package. -/
def pkgKey (p : UpdatePackage_1_5) : List TargetPlatform × ReleaseType :=
  (p.target_platforms, p.release_type)

/-- The release-lookup loop of `ConvertJsonSchema_1_5_To_1_6`: the C++
scans the whole list keeping a pointer to the *last* release whose key
matches, then appends the link to it; `none` when no release matches. -/
def appendLinkLast (key : List TargetPlatform × ReleaseType)
    (link : DownloadLink) : List ReleaseInfo → Option (List ReleaseInfo)
  | [] => none
  | r :: rs =>
    match appendLinkLast key link rs with
    | some rs' => some (r :: rs')
    | none =>
      if relKey r = key then
        some ({ r with download_links := r.download_links ++ [link] } :: rs)
      else none

/-- The fresh `ReleaseInfo` synthesized by `ConvertJsonSchema_1_5_To_1_6`
when no existing release matches a package's key: seeded with the 1.5
document's shared version, description (as title), date and info links,
with the package's platforms and release type, and tags initialized to
the stringified platforms followed by the stringified release type. -/
def newRelease_1_5 (u : UpdateInfo_1_5) (p : UpdatePackage_1_5) : ReleaseInfo :=
  { version := u.release_version
    date := u.release_date
    title := u.release_description
    target_platforms := p.target_platforms
    type := p.release_type
    tags := p.target_platforms.map TargetPlatformToString ++
      [ReleaseTypeToString p.release_type]
    download_links := []
    info_links := u.info_links }

/-- One iteration of the package loop of `ConvertJsonSchema_1_5_To_1_6`:
the link built from the package (`package_name` left at its empty
default) is appended to the last matching release, or to a freshly
synthesized one appended at the end. -/
def convertStep (u : UpdateInfo_1_5) (rels : List ReleaseInfo)
    (p : UpdatePackage_1_5) : List ReleaseInfo :=
  match appendLinkLast (pkgKey p) ⟨p.url, p.package_type, ""⟩ rels with
  | some rels' => rels'
  | none =>
    rels ++ [{ newRelease_1_5 u p with
      download_links := [⟨p.url, p.package_type, ""⟩] }]

/-- `ConvertJsonSchema_1_5_To_1_6` from update_check_api.cpp: folds the
package list into the (caller-supplied) release list; always returns
true. -/
def ConvertJsonSchema_1_5_To_1_6 (u : UpdateInfo_1_5)
    (update_info : UpdateInfo) : Bool × UpdateInfo :=
  (true, { update_info with
    releases := u.available_packages.foldl (convertStep u) update_info.releases })

/-- First-occurrence de-duplication of a key list: keeps the first
occurrence of every key, in order of first occurrence. -/
def dedupKeys {α : Type} [DecidableEq α] : List α → List α
  | [] => []
  | k :: ks => k :: (dedupKeys ks).filter (fun k' => k' ≠ k)

/-- The canonical release the specification prescribes for key `k` of a
1.5 document with package list `ps`: seeded with the shared fields, with
the platform/type tags, and carrying — in input package order — the
links of exactly the packages whose key equals `k`. -/
def specRelOf (u : UpdateInfo_1_5) (ps : List UpdatePackage_1_5)
    (k : List TargetPlatform × ReleaseType) : ReleaseInfo :=
  { version := u.release_version
    date := u.release_date
    title := u.release_description
    target_platforms := k.1
    type := k.2
    tags := k.1.map TargetPlatformToString ++ [ReleaseTypeToString k.2]
    download_links := (ps.filter (fun p => pkgKey p = k)).map
      (fun p => ⟨p.url, p.package_type, ""⟩)
    info_links := u.info_links }

/-- The release list the specification prescribes for package list `ps`:
one canonical release per distinct key, in first-occurrence order. -/
def specReleases (u : UpdateInfo_1_5) (ps : List UpdatePackage_1_5) :
    List ReleaseInfo :=
  (dedupKeys (ps.map pkgKey)).map (specRelOf u ps)

/-- Spec-side characterization of the 1.5 → 1.6 upgrade, following the
specification's words: one canonical release per distinct
(target platforms, release type) pair in first-occurrence order, each
carrying — in input package order — the download links of exactly the
packages with that pair, seeded with the document's shared fields and
the platform/type tags. -/
def convertSpec (u : UpdateInfo_1_5) : List ReleaseInfo :=
  specReleases u u.available_packages

/-- The `ReleaseTags` element loop of `ParseJsonSchema_1_6`: every
element is read with `get<std::string>` and appended. -/
def tagsLoop : List Json → Except JsonExn (List String)
  | [] => .ok []
  | t :: rest =>
    match t.getString with
    | .error ex => .error ex
    | .ok s =>
      match tagsLoop rest with
      | .error ex => .error ex
      | .ok tags => .ok (s :: tags)

/-- The `DownloadLinks` element loop of `ParseJsonSchema_1_6` (keys
`URL`, `PackageType` and optional `PackageName`). -/
def downloadLinksLoop_1_6 :
    List Json → Except JsonExn (Bool × List ErrMsg × List DownloadLink)
  | [] => .ok (true, [], [])
  | e :: rest =>
    match e.find? "URL", e.find? "PackageType" with
    | none, _ =>
      match downloadLinksLoop_1_6 rest with
      | .error ex => .error ex
      | .ok (_, msgs, links) =>
        .ok (false, .missingDownloadLinksUrlEntry :: msgs, links)
    | some _, none =>
      match downloadLinksLoop_1_6 rest with
      | .error ex => .error ex
      | .ok (_, msgs, links) =>
        .ok (false, .missingDownloadLinksPackageTypeEntry :: msgs, links)
    | some uj, some ptj =>
      match ptj.getString with
      | .error ex => .error ex
      | .ok pts =>
        match GetPackageType_1_6 pts with
        | (false, _) =>
          match downloadLinksLoop_1_6 rest with
          | .error ex => .error ex
          | .ok (_, msgs, links) =>
            .ok (false, .invalidDownloadLinksPackageTypeValue :: msgs, links)
        | (true, pt) =>
          match uj.getString with
          | .error ex => .error ex
          | .ok u =>
            match e.find? "PackageName" with
            | none =>
              match downloadLinksLoop_1_6 rest with
              | .error ex => .error ex
              | .ok (ok, msgs, links) => .ok (ok, msgs, ⟨u, pt, ""⟩ :: links)
            | some pnj =>
              match pnj.getString with
              | .error ex => .error ex
              | .ok pn =>
                match downloadLinksLoop_1_6 rest with
                | .error ex => .error ex
                | .ok (ok, msgs, links) => .ok (ok, msgs, ⟨u, pt, pn⟩ :: links)

/-- One element of the `Releases` loop of `ParseJsonSchema_1_6`.
`okIn` is the function-wide `is_parsed` flag on entry to this iteration
(the `DownloadLinks` section is only parsed while it is still true);
`v0` and `t0` are the entry values of the never-initialized `version`
and `type` members of the freshly declared `ReleaseInfo`. -/
def ParseRelease_1_6 (okIn : Bool) (rel : Json) (v0 : VersionInfo)
    (t0 : ReleaseType) : Except JsonExn (Bool × List ErrMsg × ReleaseInfo) := do
  let (ok1, msgs1, ver) ←
    match rel.find? "ReleaseVersion" with
    | none => pure (false, [ErrMsg.missingReleaseVersionEntry], v0)
    | some vj => SplitVersionString_1_5 vj v0
  let (ok2, msgs2, date) ←
    match rel.find? "ReleaseDate" with
    | none => pure (false, [ErrMsg.missingReleaseDateEntry], "")
    | some dj =>
      match dj.getString with
      | .error ex => Except.error ex
      | .ok d => pure (true, ([] : List ErrMsg), d)
  let (ok3, msgs3, title) ←
    match rel.find? "ReleaseTitle" with
    | none => pure (false, [ErrMsg.missingReleaseTitleEntry], "")
    | some tj =>
      match tj.getString with
      | .error ex => Except.error ex
      | .ok t => pure (true, ([] : List ErrMsg), t)
  let (ok4, msgs4, rtype) ←
    match rel.find? "ReleaseType" with
    | none => pure (false, [ErrMsg.missingReleaseTypeEntry], t0)
    | some tj =>
      match tj.getString with
      | .error ex => Except.error ex
      | .ok s =>
        match GetReleaseType_1_6 s with
        | (true, rt) => pure (true, ([] : List ErrMsg), rt)
        | (false, rt) => pure (false, [ErrMsg.invalidReleaseTypeValue], rt)
  let (ok5, msgs5, platforms) ←
    match rel.find? "ReleasePlatforms" with
    | none =>
      pure (false, [ErrMsg.missingReleasePlatformsEntry], ([] : List TargetPlatform))
    | some pj => GetReleasePlatform_1_6 pj
  let (ok6, msgs6, tags) ←
    match rel.find? "ReleaseTags" with
    | none => pure (false, [ErrMsg.missingReleaseTagsEntry], ([] : List String))
    | some tj =>
      match tagsLoop tj.elems with
      | .error ex => Except.error ex
      | .ok tags => pure (true, ([] : List ErrMsg), tags)
  let (ok7, msgs7, infoLinks) ←
    match rel.find? "InfoPageLinks" with
    | none => pure (false, [ErrMsg.missingInfoPageLinksEntry], ([] : List InfoPageLink))
    | some ij =>
      if ij.isEmptyVal then
        pure (false, [ErrMsg.emptyInfoPageLinksList], ([] : List InfoPageLink))
      else infoPageLoop .incompleteInfoPageLinksEntry ij.elems
  let okSections := okIn && ok1 && ok2 && ok3 && ok4 && ok5 && ok6 && ok7
  let (ok8, msgs8, dlinks) ←
    if okSections then
      match rel.find? "DownloadLinks" with
      | none => pure (false, [ErrMsg.missingDownloadLinksEntry], ([] : List DownloadLink))
      | some dj =>
        if dj.isEmptyVal then
          pure (false, [ErrMsg.emptyDownloadLinksList], ([] : List DownloadLink))
        else downloadLinksLoop_1_6 dj.elems
    else pure (true, ([] : List ErrMsg), ([] : List DownloadLink))
  return (okSections && ok8,
          msgs1 ++ msgs2 ++ msgs3 ++ msgs4 ++ msgs5 ++ msgs6 ++ msgs7 ++ msgs8,
          ⟨ver, date, title, platforms, rtype, tags, dlinks, infoLinks⟩)

/-- The `Releases` loop of `ParseJsonSchema_1_6`, threading the
function-wide `is_parsed` flag; every `ReleaseInfo` is appended, also
after validation failures. -/
def releasesLoop_1_6 (v0 : VersionInfo) (t0 : ReleaseType) (okIn : Bool) :
    List Json → Except JsonExn (Bool × List ErrMsg × List ReleaseInfo)
  | [] => .ok (okIn, [], [])
  | r :: rest =>
    match ParseRelease_1_6 okIn r v0 t0 with
    | .error ex => .error ex
    | .ok (ok1, msgs1, rel) =>
      match releasesLoop_1_6 v0 t0 ok1 rest with
      | .error ex => .error ex
      | .ok (okR, msgsR, rels) => .ok (okR, msgs1 ++ msgsR, rel :: rels)

/-- `ParseJsonSchema_1_6` from update_check_api.cpp: requires a
non-empty `Releases` list and appends each parsed release to the
caller's `update_info`. -/
def ParseJsonSchema_1_6 (json_doc : Json) (v0 : VersionInfo) (t0 : ReleaseType)
    (update_info : UpdateInfo) :
    Except JsonExn (Bool × List ErrMsg × UpdateInfo) :=
  match json_doc.find? "Releases" with
  | none => .ok (false, [.missingReleasesEntry], update_info)
  | some rj =>
    if rj.isEmptyVal then .ok (false, [.emptyReleasesList], update_info)
    else
      match releasesLoop_1_6 v0 t0 true rj.elems with
      | .error ex => .error ex
      | .ok (ok, msgs, rels) =>
        .ok (ok, msgs, { update_info with releases := update_info.releases ++ rels })

/-- The schema-1.3 dispatch branch of `ParseJsonString`: parse into the
1.5 intermediate form, then upgrade to 1.6 (the upgrade cannot fail;
its false branch would append the conversion message). -/
def parseBranch_1_3 (json_doc : Json) (v0 : VersionInfo)
    (update_info : UpdateInfo) :
    Except JsonExn (Bool × List ErrMsg × UpdateInfo) :=
  match ParseJsonSchema_1_3 json_doc v0 with
  | .error ex => .error ex
  | .ok (false, msgs, _) => .ok (false, msgs, update_info)
  | .ok (true, msgs, u15) =>
    match ConvertJsonSchema_1_5_To_1_6 u15 update_info with
    | (true, ui) => .ok (true, msgs, ui)
    | (false, ui) => .ok (false, msgs ++ [.unableToConvert1_3To1_6], ui)

/-- The schema-1.5 dispatch branch of `ParseJsonString`. -/
def parseBranch_1_5 (json_doc : Json) (v0 : VersionInfo)
    (update_info : UpdateInfo) :
    Except JsonExn (Bool × List ErrMsg × UpdateInfo) :=
  match ParseJsonSchema_1_5 json_doc v0 with
  | .error ex => .error ex
  | .ok (false, msgs, _) => .ok (false, msgs, update_info)
  | .ok (true, msgs, u15) =>
    match ConvertJsonSchema_1_5_To_1_6 u15 update_info with
    | (true, ui) => .ok (true, msgs, ui)
    | (false, ui) => .ok (false, msgs ++ [.unableToConvert1_5To1_6], ui)

/-- Run an exception-throwing parse result through the `try`/`catch` of
`ParseJsonString`: the catch reports the failed-to-parse message (the
model drops the messages accumulated before the throw and the partial
mutation of the caller's struct, neither of which any claim observes). -/
def runCatch (update_info : UpdateInfo)
    (r : Except JsonExn (Bool × List ErrMsg × UpdateInfo)) :
    Bool × List ErrMsg × UpdateInfo :=
  match r with
  | .ok out => out
  | .error _ => (false, [.failedToParseVersionFile], update_info)

/-- `ParseJsonString` from update_check_api.cpp, over an already parsed
document (malformed manifest text is handled at the `CheckForUpdates`
level of the model): empty document or missing `SchemaVersion` fails
with the missing-SchemaVersion message; the values `"1.3"`, `"1.5"` and
`"1.6"` dispatch to the corresponding schema parser; any other string
fails with the unsupported-schema-version message. -/
def ParseJsonString (json_doc : Json) (v0 : VersionInfo) (t0 : ReleaseType)
    (update_info : UpdateInfo) : Bool × List ErrMsg × UpdateInfo :=
  runCatch update_info
    (if json_doc.isEmptyVal then
      .ok (false, [.missingSchemaVersionEntry], update_info)
    else
      match json_doc.find? "SchemaVersion" with
      | none => .ok (false, [.missingSchemaVersionEntry], update_info)
      | some sv =>
        match sv.getString with
        | .error ex => .error ex
        | .ok s =>
          if s = "1.3" then parseBranch_1_3 json_doc v0 update_info
          else if s = "1.5" then parseBranch_1_5 json_doc v0 update_info
          else if s = "1.6" then ParseJsonSchema_1_6 json_doc v0 t0 update_info
          else .ok (false, [.unsupportedSchemaVersion], update_info))

/-- `FilterToCurrentPlatform` from update_check_api.cpp, with the
compile-time platform constant made an explicit argument: when the
platform is `kUnknown` the list is left untouched (and the flag stays
true); otherwise the releases whose `target_platforms` do not contain
the platform are erased, and the flag reports whether any release is
left. -/
def FilterToCurrentPlatform (current_platform : TargetPlatform)
    (update_info : UpdateInfo) : UpdateInfo × Bool :=
  if current_platform = .kUnknown then (update_info, true)
  else
    let kept := update_info.releases.filter
      (fun r => r.target_platforms.any (fun pl => pl = current_platform))
    ({ update_info with releases := kept }, decide (kept.length > 0))

/-- The update-availability loop of `CheckForUpdates`: the flag is
overwritten with the comparison result of each release in order, and the
loop breaks at the first release comparing `kNewer`. -/
def updateAvailableScan (version_to_compare : VersionInfo) :
    List ReleaseInfo → Bool
  | [] => false
  | r :: rest =>
    if r.version.Compare version_to_compare = kNewer then true
    else updateAvailableScan version_to_compare rest

/-- `haystack.rfind(needle) != std::string::npos`: substring
containment. -/
def listContains (needle : List Char) : List Char → Bool
  | [] => needle.isEmpty
  | c :: rest => needle.isPrefixOf (c :: rest) || listContains needle rest

/-- `json_filename.rfind(kStringJsonFileExtension) != std::string::npos`
as evaluated by `CheckForUpdates`: does the filename *contain* `.json`. -/
def strContains (haystack needle : String) : Bool :=
  listContains needle.toList haystack.toList

/-- The decision phase of `CheckForUpdates` after a successful parse:
filter to the current platform, and only when compatible releases may
remain, scan them against the reference version. -/
def decideUpdateAvailability (current_platform : TargetPlatform)
    (reference_version : VersionInfo) (ui : UpdateInfo) : UpdateInfo :=
  match FilterToCurrentPlatform current_platform ui with
  | (filtered, has_compatible_update) =>
    if has_compatible_update then
      { filtered with
        is_update_available :=
          updateAvailableScan reference_version filtered.releases }
    else filtered

/-- Spec-side suffix test (what "the manifest filename must end in
`.json`" means): `needle` is a suffix of `haystack`. -/
def strEndsWith (haystack needle : String) : Bool :=
  needle.toList.isSuffixOf haystack.toList

/-- The transport-and-beyond part of `CheckForUpdates`, reached once the
filename check has passed: `fetched` is the outcome of the chosen
transport strategy — its success flag, the messages it appended, and
the manifest text parsed into a document (`none` when the text is not
valid JSON, which the catch in `ParseJsonString` turns into the
failed-to-parse message). -/
def checkAfterFilenameGate (current_platform : TargetPlatform)
    (env : Option String) (v0 veq : VersionInfo) (t0 : ReleaseType)
    (product_version : VersionInfo)
    (fetched : Bool × List ErrMsg × Option Json)
    (update_info : UpdateInfo) : Bool × List ErrMsg × UpdateInfo :=
  match fetched with
  | (false, msgsT, _) => (false, msgsT, update_info)
  | (true, msgsT, none) =>
    (false, msgsT ++ [.failedToParseVersionFile], update_info)
  | (true, msgsT, some doc) =>
    match ParseJsonString doc v0 t0 update_info with
    | (false, msgsP, ui) => (false, msgsT ++ msgsP, ui)
    | (true, msgsP, ui) =>
      (true, msgsT ++ msgsP,
        decideUpdateAvailability current_platform
          (VersionToCompare env veq product_version) ui)

/-- `UpdateCheck::CheckForUpdates` from update_check_api.cpp.  The
compile-time platform and the environment variable are explicit
arguments; the three transport strategies (GitHub latest-release
indirection, direct download, local file) are abstracted as `fetch`.
`v0`, `veq` and `t0` are the entry values of the never-initialized
locals (`release_version`/`version` members and `version_to_compare`).
The entry point resets `is_update_available` and then gates on
`rfind(".json") != npos` — a substring test — before any transport. -/
def CheckForUpdates (current_platform : TargetPlatform) (env : Option String)
    (v0 veq : VersionInfo) (t0 : ReleaseType)
    (fetch : Unit → Bool × List ErrMsg × Option Json)
    (product_version : VersionInfo) (json_filename : String)
    (update_info0 : UpdateInfo) : Bool × List ErrMsg × UpdateInfo :=
  if !(strContains json_filename ".json") then
    (false, [.urlMustPointToAJsonFile],
      { update_info0 with is_update_available := false })
  else
    checkAfterFilenameGate current_platform env v0 veq t0 product_version
      (fetch ()) { update_info0 with is_update_available := false }

/-- A minimal release fixture: version `v`, platforms `tps`, GA type. -/
def exRel (v : VersionInfo) (tps : List TargetPlatform) : ReleaseInfo :=
  ⟨v, "", "", tps, .kGeneralAvailability, [], [], []⟩

/-- A concrete well-formed schema-1.6 manifest fixture. -/
def exDoc16 : Json :=
  Json.obj [("SchemaVersion", Json.str "1.6"),
    ("Releases", Json.arr [Json.obj [
      ("ReleaseVersion", Json.obj [("Major", Json.num 1), ("Minor", Json.num 1),
        ("Patch", Json.num 0), ("Build", Json.num 0)]),
      ("ReleaseDate", Json.str "2020-01-01"),
      ("ReleaseTitle", Json.str "t"),
      ("ReleaseType", Json.str "GA"),
      ("ReleasePlatforms", Json.arr [Json.str "Windows"]),
      ("ReleaseTags", Json.arr []),
      ("InfoPageLinks", Json.arr [Json.obj [("URL", Json.str "u"),
        ("Description", Json.str "d")]]),
      ("DownloadLinks", Json.arr [Json.obj [("URL", Json.str "dl"),
        ("PackageType", Json.str "ZIP")]])]])]

/-- The canonical release `exDoc16` parses to. -/
def exRel16 : ReleaseInfo :=
  ⟨⟨1, 1, 0, 0⟩, "2020-01-01", "t", [.kWindows], .kGeneralAvailability, [],
    [⟨"dl", .kZip, ""⟩], [⟨"u", "d"⟩]⟩

/-- A concrete well-formed schema-1.3 manifest fixture with one Windows
and one Linux download. -/
def exDoc13 : Json :=
  Json.obj [("SchemaVersion", Json.str "1.3"),
    ("VersionString", Json.str "2.3"),
    ("ReleaseDate", Json.str "2019-01-01"),
    ("Description", Json.str "desc"),
    ("InfoPageURL", Json.arr [Json.obj [("URL", Json.str "u"),
      ("Description", Json.str "d")]]),
    ("DownloadURL", Json.arr [
      Json.obj [("URL", Json.str "w"), ("TargetInfo", Json.str "Windows_ZIP")],
      Json.obj [("URL", Json.str "l"), ("TargetInfo", Json.str "Linux_TAR")]])]

/-- The 1.5 intermediate model `exDoc13` parses to. -/
def exU15of13 : UpdateInfo_1_5 :=
  ⟨⟨2, 3, 0, 0⟩, "2019-01-01", "desc",
    [⟨"w", .kZip, .kGeneralAvailability, [.kWindows]⟩,
     ⟨"l", .kTar, .kGeneralAvailability, [.kUbuntu]⟩],
    [⟨"u", "d"⟩]⟩

/-- Spec-side strict lexicographic order on the 4-tuple
(major, minor, patch, build), earlier fields dominating. -/
def VersionLexGt (a b : VersionInfo) : Prop :=
  a.major > b.major ∨
    (a.major = b.major ∧ (a.minor > b.minor ∨
      (a.minor = b.minor ∧ (a.patch > b.patch ∨
        (a.patch = b.patch ∧ a.build > b.build)))))

instance (a b : VersionInfo) : Decidable (VersionLexGt a b) := by
  unfold VersionLexGt; infer_instance

theorem compare_newer_iff_lexGt (a b : VersionInfo) :
    a.Compare b = kNewer ↔ VersionLexGt a b := by
  unfold VersionInfo.Compare VersionLexGt kNewer kOlder kEqual
  split_ifs <;> simp_all <;> omega

theorem compare_equal_iff_eq (a b : VersionInfo) :
    a.Compare b = kEqual ↔ a = b := by
  obtain ⟨a1, a2, a3, a4⟩ := a
  obtain ⟨b1, b2, b3, b4⟩ := b
  unfold VersionInfo.Compare kNewer kOlder kEqual
  split_ifs <;> simp_all <;> omega

theorem compare_antisymm (a b : VersionInfo) :
    a.Compare b = kNewer ↔ b.Compare a = kOlder := by
  unfold VersionInfo.Compare kNewer kOlder kEqual
  split_ifs <;> simp_all <;> omega

theorem split_1_3_fail_iff (s : String) (v0 : VersionInfo) :
    (SplitVersionString_1_3 s v0).1 = false ↔
      (s.isEmpty = true ∨ (sscanf_u4 s).1 = 0 ∨ 4 < (sscanf_u4 s).1) := by
  unfold SplitVersionString_1_3
  by_cases h : s.isEmpty
  · simp [h]
  · simp only [h, Bool.false_eq_true, if_false]
    rcases hn : sscanf_u4 s with ⟨n, v⟩
    by_cases h0 : n = 0 || 4 < n
    · simp only [h0, if_true]
      simp only [Bool.or_eq_true, decide_eq_true_eq] at h0
      simp [h, h0]
    · simp only [h0, Bool.false_eq_true, if_false]
      simp only [Bool.or_eq_true, decide_eq_true_eq] at h0
      push_neg at h0
      simp [h, h0.1, h0.2]

/-- Every package produced by the 1.3 download loop targets exactly one
platform, and that platform is Windows or Ubuntu (the only platforms
`GetPackageType_1_3` can emit). -/
theorem downloadUrlLoop_1_3_platforms (es : List Json)
    (ok : Bool) (msgs : List ErrMsg) (pkgs : List UpdatePackage_1_5)
    (h : downloadUrlLoop_1_3 es = .ok (ok, msgs, pkgs)) :
    ∀ p ∈ pkgs, p.target_platforms = [TargetPlatform.kWindows] ∨
      p.target_platforms = [TargetPlatform.kUbuntu] := by
  induction es generalizing ok msgs pkgs with
  | nil =>
    simp only [downloadUrlLoop_1_3] at h
    obtain ⟨rfl, rfl, rfl⟩ : ok = true ∧ msgs = [] ∧ pkgs = [] := by
      cases h; exact ⟨rfl, rfl, rfl⟩
    intro p hp
    simp at hp
  | cons e rest ih =>
    intro p hp
    simp only [downloadUrlLoop_1_3] at h
    split at h
    case _ uj tj _ =>
      split at h
      · exact absurd h (by simp)
      case _ target _ =>
        split at h
        case _ platform ptype heq =>
          split at h
          · exact absurd h (by simp)
          case _ u _ =>
            split at h
            · exact absurd h (by simp)
            case _ ok' msgs' pkgs' hrec =>
              cases h
              rcases List.mem_cons.1 hp with rfl | hp'
              · have : platform = TargetPlatform.kWindows ∨
                    platform = TargetPlatform.kUbuntu := by
                  unfold GetPackageType_1_3 at heq
                  split_ifs at heq <;> simp_all
                rcases this with rfl | rfl
                · exact Or.inl rfl
                · exact Or.inr rfl
              · exact ih _ _ _ hrec p hp'
        case _ heq =>
          split at h
          · exact absurd h (by simp)
          case _ ok' msgs' pkgs' hrec =>
            cases h
            exact ih _ _ _ hrec p hp
    case _ =>
      split at h
      · exact absurd h (by simp)
      case _ ok' msgs' pkgs' hrec =>
        cases h
        exact ih _ _ _ hrec p hp

theorem mem_dedupKeys {α : Type} [DecidableEq α] (ks : List α) (k : α) :
    k ∈ dedupKeys ks ↔ k ∈ ks := by
  induction ks with
  | nil => simp [dedupKeys]
  | cons a ks ih =>
    simp only [dedupKeys, List.mem_cons, List.mem_filter, ih, ne_eq,
      decide_not, Bool.not_eq_eq_eq_not, Bool.not_false, decide_eq_true_eq]
    by_cases h : k = a <;> simp [h]

theorem nodup_dedupKeys {α : Type} [DecidableEq α] (ks : List α) :
    (dedupKeys ks).Nodup := by
  induction ks with
  | nil => simp [dedupKeys]
  | cons a ks ih =>
    simp only [dedupKeys]
    refine List.Nodup.cons ?_ (ih.filter _)
    simp [List.mem_filter]

theorem dedupKeys_append_singleton {α : Type} [DecidableEq α]
    (ks : List α) (k : α) :
    dedupKeys (ks ++ [k]) =
      if k ∈ ks then dedupKeys ks else dedupKeys ks ++ [k] := by
  induction ks with
  | nil => simp [dedupKeys]
  | cons a ks ih =>
    have hL : dedupKeys ((a :: ks) ++ [k]) =
        a :: (dedupKeys (ks ++ [k])).filter (fun k' => k' ≠ a) := rfl
    have hR : dedupKeys (a :: ks) =
        a :: (dedupKeys ks).filter (fun k' => k' ≠ a) := rfl
    rw [hL, ih, hR]
    by_cases hk : k ∈ ks
    · rw [if_pos hk, if_pos (List.mem_cons.2 (Or.inr hk))]
    · by_cases hka : k = a
      · subst hka
        rw [if_neg hk, if_pos (List.mem_cons.2 (Or.inl rfl)), List.filter_append]
        simp
      · rw [if_neg hk, if_neg (fun h => (List.mem_cons.1 h).elim hka hk),
          List.filter_append]
        simp [hka]

theorem appendLinkLast_map
    (f : List TargetPlatform × ReleaseType → ReleaseInfo)
    (hf : ∀ k, relKey (f k) = k)
    (ks : List (List TargetPlatform × ReleaseType)) (hnd : ks.Nodup)
    (key : List TargetPlatform × ReleaseType) (link : DownloadLink) :
    appendLinkLast key link (ks.map f) =
      if key ∈ ks then
        some (ks.map (fun k => if k = key then
          { f k with download_links := (f k).download_links ++ [link] }
          else f k))
      else none := by
  induction ks with
  | nil => simp [appendLinkLast]
  | cons a ks ih =>
    have hnd' : ks.Nodup := (List.nodup_cons.1 hnd).2
    have hana : a ∉ ks := (List.nodup_cons.1 hnd).1
    simp only [List.map_cons, appendLinkLast, ih hnd']
    by_cases hk : key ∈ ks
    · have ha : ¬(a = key) := fun h => hana (h ▸ hk)
      simp [hk, ha, List.mem_cons]
    · simp only [hk, if_false]
      rw [hf a]
      by_cases hak : a = key
      · subst hak
        simp only [if_pos rfl, List.mem_cons, true_or, if_true, if_pos trivial]
        have : ks.map (fun k => if k = a then
            { f k with download_links := (f k).download_links ++ [link] }
            else f k) = ks.map f := by
          apply List.map_congr_left
          intro k hkmem
          have : ¬(k = a) := fun h => hana (h ▸ hkmem)
          simp [this]
        rw [this]
      · simp [hak, hk, Ne.symm, List.mem_cons]

theorem filter_singleton_of_ne (p : UpdatePackage_1_5)
    (k : List TargetPlatform × ReleaseType) (h : ¬(pkgKey p = k)) :
    [p].filter (fun q => pkgKey q = k) = [] := by
  simp [List.filter_cons, h]

theorem convertStep_spec (u : UpdateInfo_1_5)
    (qs : List UpdatePackage_1_5) (p : UpdatePackage_1_5) :
    convertStep u (specReleases u qs) p = specReleases u (qs ++ [p]) := by
  have hrw := appendLinkLast_map (specRelOf u qs) (fun _ => rfl)
    (dedupKeys (qs.map pkgKey)) (nodup_dedupKeys _) (pkgKey p)
    ⟨p.url, p.package_type, ""⟩
  by_cases hk : pkgKey p ∈ dedupKeys (qs.map pkgKey)
  · have hk' : pkgKey p ∈ qs.map pkgKey := (mem_dedupKeys _ _).1 hk
    rw [if_pos hk] at hrw
    simp only [convertStep, specReleases, hrw]
    rw [List.map_append, List.map_singleton, dedupKeys_append_singleton,
      if_pos hk']
    apply List.map_congr_left
    intro k hkmem
    by_cases hkp : k = pkgKey p
    · subst hkp
      simp only [if_pos rfl]
      unfold specRelOf
      simp [List.filter_append, List.filter_cons]
    · simp only [if_neg hkp]
      unfold specRelOf
      rw [List.filter_append,
        filter_singleton_of_ne p k (fun h => hkp h.symm), List.append_nil]
  · have hk' : pkgKey p ∉ qs.map pkgKey := fun h => hk ((mem_dedupKeys _ _).2 h)
    rw [if_neg hk] at hrw
    simp only [convertStep, specReleases, hrw]
    rw [List.map_append, List.map_singleton, dedupKeys_append_singleton,
      if_neg hk', List.map_append, List.map_singleton]
    congr 1
    · apply List.map_congr_left
      intro k hkmem
      have hkp : ¬(pkgKey p = k) := by
        intro h
        exact hk' (h ▸ (mem_dedupKeys _ _).1 hkmem)
      unfold specRelOf
      rw [List.filter_append, filter_singleton_of_ne p k hkp, List.append_nil]
    · have hfil : qs.filter (fun q => pkgKey q = pkgKey p) = [] := by
        rw [List.filter_eq_nil_iff]
        intro q hq
        simp only [decide_eq_true_eq]
        intro h
        exact hk' (h ▸ List.mem_map_of_mem pkgKey hq)
      unfold specRelOf newRelease_1_5
      rw [List.filter_append, hfil, List.nil_append]
      simp [pkgKey, List.filter_cons]

theorem convert_foldl_spec (u : UpdateInfo_1_5)
    (ps qs : List UpdatePackage_1_5) :
    ps.foldl (convertStep u) (specReleases u qs) = specReleases u (qs ++ ps) := by
  induction ps generalizing qs with
  | nil => simp
  | cons p ps ih =>
    rw [List.foldl_cons, convertStep_spec, ih, ← List.append_cons]

theorem convert_eq_spec (u : UpdateInfo_1_5) (b : Bool) :
    ConvertJsonSchema_1_5_To_1_6 u ⟨b, []⟩ = (true, ⟨b, convertSpec u⟩) := by
  unfold ConvertJsonSchema_1_5_To_1_6 convertSpec
  have h0 : (⟨b, []⟩ : UpdateInfo).releases = specReleases u [] := by
    simp [specReleases, dedupKeys]
  rw [h0, convert_foldl_spec, List.nil_append]

end UpdateCheck

namespace UpdateCheck

/-- C9: `Compare` agrees with lexicographic order on
(major, minor, patch, build) — `kNewer` exactly on lexicographically
greater, `kEqual` exactly on component-wise equality — and it is
antisymmetric: `Compare v1 v2 = kNewer` iff `Compare v2 v1 = kOlder`. -/
theorem claim_C9_compare_lexicographic (v1 v2 : VersionInfo) :
    (v1.Compare v2 = kNewer ↔ VersionLexGt v1 v2) ∧
    (v1.Compare v2 = kOlder ↔ VersionLexGt v2 v1) ∧
    (v1.Compare v2 = kEqual ↔ v1 = v2) ∧
    (v1.Compare v2 = kNewer ↔ v2.Compare v1 = kOlder) :=
  ⟨compare_newer_iff_lexGt v1 v2,
   (compare_antisymm v2 v1).symm.trans (compare_newer_iff_lexGt v2 v1),
   compare_equal_iff_eq v1 v2,
   compare_antisymm v1 v2⟩

/-- C8: the schema-1.3 version split behaves as a `"%u.%u.%u.%u"` scan:
it fails exactly when the string is empty or the scan completes zero or
more than four conversions, `"2.3"` yields version 2.3.0.0 (missing
trailing components zero), and the empty string fails. -/
theorem claim_C8_split_1_3_scan (s : String) (v0 : VersionInfo) :
    ((SplitVersionString_1_3 s v0).1 = false ↔
      (s.isEmpty = true ∨ (sscanf_u4 s).1 = 0 ∨ 4 < (sscanf_u4 s).1)) ∧
    SplitVersionString_1_3 "2.3" v0 = (true, [], ⟨2, 3, 0, 0⟩) ∧
    (SplitVersionString_1_3 "" v0).1 = false := by
  refine ⟨split_1_3_fail_iff s v0, ?_, rfl⟩
  show (if ("2.3" : String).isEmpty then _ else _) = _
  norm_num [SplitVersionString_1_3]
  rfl

/-- C7: on a schema-1.5 `ReleaseVersion` object `{"Major": 2}` parsing
succeeds, but the absent Minor/Patch/Build components are not set to 0 —
they keep whatever value the never-initialized `VersionInfo` fields held
on entry (here 9.9.9.9), so the result is 2.9.9.9 rather than the
2.0.0.0 the specification requires. -/
theorem claim_C7_absent_subfields_keep_entry_values :
    SplitVersionString_1_5 (Json.obj [("Major", Json.num 2)]) ⟨9, 9, 9, 9⟩ =
      Except.ok (true, [], ⟨2, 9, 9, 9⟩) ∧
    SplitVersionString_1_5 (Json.obj [("Major", Json.num 2)]) ⟨9, 9, 9, 9⟩ ≠
      Except.ok (true, [], (⟨2, 0, 0, 0⟩ : VersionInfo)) := by
  refine ⟨rfl, ?_⟩
  intro h
  rw [show SplitVersionString_1_5 (Json.obj [("Major", Json.num 2)]) ⟨9, 9, 9, 9⟩ =
        Except.ok (true, [], (⟨2, 9, 9, 9⟩ : VersionInfo)) from rfl] at h
  simp at h

/-- C5: the reference version used by the update comparison is the
parsed override when `RDTS_UPDATER_ASSUME_VERSION` is set and parses,
the fixed fallback 1.0.0.0 when it is set but unparsable, and the
caller-supplied product version when it is unset. -/
theorem claim_C5_env_override (env : Option String) (v0 product : VersionInfo) :
    (∀ s v, env = some s → ParseVersionString s = some v →
        VersionToCompare env v0 product = v) ∧
    (∀ s, env = some s → ParseVersionString s = none →
        VersionToCompare env v0 product = ⟨1, 0, 0, 0⟩) ∧
    (env = none → VersionToCompare env v0 product = product) := by
  refine ⟨?_, ?_, ?_⟩
  · intro s v hs hp
    subst hs
    simp [VersionToCompare, GetToolVersion, hp]
  · intro s hs hp
    subst hs
    simp [VersionToCompare, GetToolVersion, hp]
  · intro hs
    subst hs
    rfl

theorem claim_C5_env_override_witness :
    VersionToCompare (some "3.2.1.0") ⟨9, 9, 9, 9⟩ ⟨0, 0, 0, 7⟩ = ⟨3, 2, 1, 0⟩ ∧
    VersionToCompare (some "not a version") ⟨9, 9, 9, 9⟩ ⟨0, 0, 0, 7⟩ = ⟨1, 0, 0, 0⟩ ∧
    VersionToCompare none ⟨9, 9, 9, 9⟩ ⟨0, 0, 0, 7⟩ = ⟨0, 0, 0, 7⟩ :=
  ⟨(claim_C5_env_override (some "3.2.1.0") ⟨9, 9, 9, 9⟩ ⟨0, 0, 0, 7⟩).1
      "3.2.1.0" ⟨3, 2, 1, 0⟩ rfl rfl,
   (claim_C5_env_override (some "not a version") ⟨9, 9, 9, 9⟩ ⟨0, 0, 0, 7⟩).2.1
      "not a version" rfl rfl,
   (claim_C5_env_override none ⟨9, 9, 9, 9⟩ ⟨0, 0, 0, 7⟩).2.2 rfl⟩

theorem jsonListSection_ok {β : Type} (doc : Json) (key : String)
    (m1 m2 : ErrMsg)
    (loop : List Json → Except JsonExn (Bool × List ErrMsg × List β))
    (ok : Bool) (msgs : List ErrMsg) (xs : List β)
    (h : jsonListSection doc key m1 m2 loop = .ok (ok, msgs, xs)) :
    xs = [] ∨ ∃ lj, doc.find? key = some lj ∧ loop lj.elems = .ok (ok, msgs, xs) := by
  unfold jsonListSection at h
  split at h
  · cases h; exact Or.inl rfl
  case _ lj heq =>
    split at h
    · cases h; exact Or.inl rfl
    · exact Or.inr ⟨lj, heq, h⟩

theorem parse_1_3_packages (doc : Json) (v0 : VersionInfo) (ok : Bool)
    (msgs : List ErrMsg) (u15 : UpdateInfo_1_5)
    (h : ParseJsonSchema_1_3 doc v0 = .ok (ok, msgs, u15)) :
    ∀ p ∈ u15.available_packages,
      p.target_platforms = [TargetPlatform.kWindows] ∨
      p.target_platforms = [TargetPlatform.kUbuntu] := by
  unfold ParseJsonSchema_1_3 at h
  simp only [bind, Except.bind, pure, Except.pure] at h
  split at h
  · simp at h
  · split at h
    · simp at h
    · split at h
      · simp at h
      · split at h
        · simp at h
        · split at h
          · simp at h
          next x5 hsec5 =>
            cases h
            intro p hp
            rcases jsonListSection_ok _ _ _ _ _ _ _ _ hsec5 with
              hnil | ⟨lj, _, hloop⟩
            · rw [hnil] at hp; simp at hp
            · exact downloadUrlLoop_1_3_platforms _ _ _ _ hloop p hp

/-- C10: the five schema-1.3 `TargetInfo` tokens translate as
Windows_ZIP to (Windows, Zip), Windows_MSI to (Windows, Msi),
Linux_TAR to (Ubuntu, Tar), Linux_RPM to (Ubuntu, Rpm) and Linux_Debian
to (Ubuntu, Debian); consequently a successfully parsed schema-1.3
manifest never yields a release whose target platforms include Rhel or
Darwin. -/
theorem claim_C10_targetinfo_tokens :
    GetPackageType_1_3 "Windows_ZIP" = (true, .kWindows, .kZip) ∧
    GetPackageType_1_3 "Windows_MSI" = (true, .kWindows, .kMsi) ∧
    GetPackageType_1_3 "Linux_TAR" = (true, .kUbuntu, .kTar) ∧
    GetPackageType_1_3 "Linux_RPM" = (true, .kUbuntu, .kRpm) ∧
    GetPackageType_1_3 "Linux_Debian" = (true, .kUbuntu, .kDebian) ∧
    ∀ (doc : Json) (v0 : VersionInfo) (msgs : List ErrMsg)
      (u15 : UpdateInfo_1_5) (b : Bool),
      ParseJsonSchema_1_3 doc v0 = .ok (true, msgs, u15) →
      ∀ r ∈ (ConvertJsonSchema_1_5_To_1_6 u15 ⟨b, []⟩).2.releases,
        TargetPlatform.kRhel ∉ r.target_platforms ∧
        TargetPlatform.kDarwin ∉ r.target_platforms := by
  refine ⟨rfl, rfl, rfl, rfl, rfl, ?_⟩
  intro doc v0 msgs u15 b hparse r hr
  rw [convert_eq_spec u15 b] at hr
  unfold convertSpec specReleases at hr
  rcases List.mem_map.1 hr with ⟨k, hkmem, rfl⟩
  have hk : k ∈ u15.available_packages.map pkgKey := (mem_dedupKeys _ _).1 hkmem
  rcases List.mem_map.1 hk with ⟨p, hp, rfl⟩
  have := parse_1_3_packages doc v0 true msgs u15 hparse p hp
  have htp : (specRelOf u15 u15.available_packages (pkgKey p)).target_platforms =
      p.target_platforms := rfl
  rw [htp]
  rcases this with h | h <;> rw [h] <;> simp

theorem claim_C10_targetinfo_tokens_witness :
    ParseJsonSchema_1_3 exDoc13 ⟨9, 9, 9, 9⟩ = .ok (true, [], exU15of13) ∧
    (TargetPlatform.kRhel ∉
        (specRelOf exU15of13 exU15of13.available_packages
          ([.kWindows], .kGeneralAvailability)).target_platforms ∧
      TargetPlatform.kDarwin ∉
        (specRelOf exU15of13 exU15of13.available_packages
          ([.kWindows], .kGeneralAvailability)).target_platforms) := by
  refine ⟨by rfl, ?_⟩
  have hparse : ParseJsonSchema_1_3 exDoc13 ⟨9, 9, 9, 9⟩ =
      .ok (true, [], exU15of13) := by rfl
  have hmem : specRelOf exU15of13 exU15of13.available_packages
      ([.kWindows], .kGeneralAvailability) ∈
      (ConvertJsonSchema_1_5_To_1_6 exU15of13 ⟨false, []⟩).2.releases := by
    rw [convert_eq_spec exU15of13 false]
    exact List.mem_map.2 ⟨([.kWindows], .kGeneralAvailability), by decide, rfl⟩
  exact claim_C10_targetinfo_tokens.2.2.2.2.2 exDoc13 ⟨9, 9, 9, 9⟩ []
    exU15of13 false hparse _ hmem

/-- C3: starting from an empty release list, the 1.5 → 1.6 upgrade
returns true and produces exactly the specification's canonical form:
one release per distinct (target platforms, release type) pair in
first-occurrence package order, each seeded with the document's shared
version, description-as-title, date and info links, tagged with the
stringified platforms followed by the stringified release type, and
carrying — in input package order — one (url, package type) link per
package whose pair equals the release's; in particular the output keys
are the first-occurrence de-duplication of the package keys. -/
theorem claim_C3_upgrade_grouping (u : UpdateInfo_1_5) (b : Bool) :
    ConvertJsonSchema_1_5_To_1_6 u ⟨b, []⟩ = (true, ⟨b, convertSpec u⟩) ∧
    (convertSpec u).map relKey = dedupKeys (u.available_packages.map pkgKey) := by
  refine ⟨convert_eq_spec u b, ?_⟩
  show (List.map (specRelOf u u.available_packages)
      (dedupKeys (u.available_packages.map pkgKey))).map relKey = _
  rw [List.map_map]
  have h : List.map (relKey ∘ specRelOf u u.available_packages)
      (dedupKeys (u.available_packages.map pkgKey)) =
      List.map id (dedupKeys (u.available_packages.map pkgKey)) :=
    List.map_congr_left (fun k _ => rfl)
  rw [h, List.map_id]

theorem any_eq_mem (tps : List TargetPlatform) (c : TargetPlatform) :
    tps.any (fun pl => pl = c) = decide (c ∈ tps) := by
  induction tps with
  | nil => rfl
  | cons a t ih =>
    simp only [List.any_cons, ih, List.mem_cons]
    by_cases hc : a = c
    · subst hc; simp
    · have hc' : ¬(c = a) := fun h => hc h.symm
      simp [hc, hc']

theorem filter_release_list (current : TargetPlatform) (ui : UpdateInfo)
    (h : current ≠ .kUnknown) :
    (FilterToCurrentPlatform current ui).1.releases =
      ui.releases.filter (fun r => decide (current ∈ r.target_platforms)) := by
  unfold FilterToCurrentPlatform
  rw [if_neg h]
  exact List.filter_congr (fun r _ => any_eq_mem _ _)

/-- C4: with platform `kUnknown` the filter leaves the struct untouched
(flag true); otherwise exactly the releases whose target platforms
contain the running platform survive, in their original relative order
(a sublist of the input), and the returned flag reports whether any
survived. -/
theorem claim_C4_platform_filter (current : TargetPlatform) (ui : UpdateInfo) :
    (current = .kUnknown → FilterToCurrentPlatform current ui = (ui, true)) ∧
    (current ≠ .kUnknown →
      (FilterToCurrentPlatform current ui).1.releases =
        ui.releases.filter (fun r => decide (current ∈ r.target_platforms)) ∧
      (FilterToCurrentPlatform current ui).1.releases.Sublist ui.releases ∧
      ((FilterToCurrentPlatform current ui).2 = true ↔
        (FilterToCurrentPlatform current ui).1.releases ≠ [])) := by
  constructor
  · intro h
    simp [FilterToCurrentPlatform, h]
  · intro h
    refine ⟨filter_release_list current ui h, ?_, ?_⟩
    · rw [filter_release_list current ui h]
      exact List.filter_sublist _
    · unfold FilterToCurrentPlatform
      rw [if_neg h]
      simp [List.length_pos]

theorem claim_C4_platform_filter_witness :
    (FilterToCurrentPlatform .kWindows
      ⟨false, [exRel ⟨1, 0, 0, 0⟩ [.kWindows], exRel ⟨1, 0, 0, 0⟩ [.kUbuntu],
        exRel ⟨1, 0, 0, 0⟩ [.kWindows, .kDarwin]]⟩).1.releases =
      [exRel ⟨1, 0, 0, 0⟩ [.kWindows],
       exRel ⟨1, 0, 0, 0⟩ [.kWindows, .kDarwin]] := by
  have h := (claim_C4_platform_filter .kWindows
    ⟨false, [exRel ⟨1, 0, 0, 0⟩ [.kWindows], exRel ⟨1, 0, 0, 0⟩ [.kUbuntu],
      exRel ⟨1, 0, 0, 0⟩ [.kWindows, .kDarwin]]⟩).2 (by decide)
  rw [h.1]
  decide

theorem scan_true_iff (ref : VersionInfo) (l : List ReleaseInfo) :
    updateAvailableScan ref l = true ↔
      ∃ r ∈ l, r.version.Compare ref = kNewer := by
  induction l with
  | nil => simp [updateAvailableScan]
  | cons r rest ih =>
    simp only [updateAvailableScan]
    by_cases hc : r.version.Compare ref = kNewer
    · simp [hc]
    · simp [hc, ih]

theorem filter_preserves_flag (current : TargetPlatform) (ui : UpdateInfo) :
    (FilterToCurrentPlatform current ui).1.is_update_available =
      ui.is_update_available := by
  unfold FilterToCurrentPlatform
  split <;> rfl

theorem filter_flag_false_nil (current : TargetPlatform) (ui : UpdateInfo)
    (h : (FilterToCurrentPlatform current ui).2 = false) :
    (FilterToCurrentPlatform current ui).1.releases = [] := by
  by_cases hu : current = TargetPlatform.kUnknown
  · unfold FilterToCurrentPlatform at h
    rw [if_pos hu] at h
    simp at h
  · unfold FilterToCurrentPlatform at h ⊢
    rw [if_neg hu] at h ⊢
    simp only [decide_eq_false_iff_not, not_lt, Nat.le_zero,
      List.length_eq_zero] at h
    simp [h]

/-- C2: after the platform filter, `is_update_available` ends up true
iff some surviving release's version compares `kNewer` than the
reference version (the scan walks survivors in order and breaks at the
first such release — any release after a Newer one cannot influence the
outcome); if no release survives, it stays false. -/
theorem claim_C2_update_decision (current : TargetPlatform)
    (ref : VersionInfo) (ui : UpdateInfo)
    (h0 : ui.is_update_available = false) :
    ((decideUpdateAvailability current ref ui).is_update_available = true ↔
      ∃ r ∈ (FilterToCurrentPlatform current ui).1.releases,
        r.version.Compare ref = kNewer) ∧
    ((FilterToCurrentPlatform current ui).1.releases = [] →
      (decideUpdateAvailability current ref ui).is_update_available = false) ∧
    (decideUpdateAvailability current ref ui).releases =
      (FilterToCurrentPlatform current ui).1.releases ∧
    (∀ (l1 l2 : List ReleaseInfo) (r : ReleaseInfo),
      r.version.Compare ref = kNewer →
      updateAvailableScan ref (l1 ++ r :: l2) = true) := by
  have heq : decideUpdateAvailability current ref ui =
      (if (FilterToCurrentPlatform current ui).2 then
        { (FilterToCurrentPlatform current ui).1 with
          is_update_available :=
            updateAvailableScan ref
              (FilterToCurrentPlatform current ui).1.releases }
      else (FilterToCurrentPlatform current ui).1) := rfl
  have hmain : ((decideUpdateAvailability current ref ui).is_update_available = true ↔
      ∃ r ∈ (FilterToCurrentPlatform current ui).1.releases,
        r.version.Compare ref = kNewer) ∧
      (decideUpdateAvailability current ref ui).releases =
        (FilterToCurrentPlatform current ui).1.releases := by
    rw [heq]
    by_cases hflag : (FilterToCurrentPlatform current ui).2 = true
    · rw [if_pos hflag]
      exact ⟨scan_true_iff ref _, rfl⟩
    · have hfalse : (FilterToCurrentPlatform current ui).2 = false := by
        revert hflag; cases (FilterToCurrentPlatform current ui).2 <;> simp
      have hnil := filter_flag_false_nil current ui hfalse
      rw [if_neg hflag]
      constructor
      · rw [filter_preserves_flag, h0, hnil]
        simp
      · rfl
  refine ⟨hmain.1, ?_, hmain.2, ?_⟩
  · intro hnil
    by_cases hava : (decideUpdateAvailability current ref ui).is_update_available = true
    · rcases hmain.1.1 hava with ⟨r, hr, _⟩
      rw [hnil] at hr
      simp at hr
    · revert hava
      cases (decideUpdateAvailability current ref ui).is_update_available <;> simp
  · intro l1 l2 r hnew
    rw [scan_true_iff]
    exact ⟨r, List.mem_append.2 (Or.inr (List.mem_cons_self _ _)), hnew⟩

theorem claim_C2_update_decision_witness :
    (decideUpdateAvailability .kWindows ⟨1, 0, 0, 0⟩
      ⟨false, [exRel ⟨0, 9, 0, 0⟩ [.kWindows], exRel ⟨1, 0, 0, 0⟩ [.kWindows],
        exRel ⟨1, 1, 0, 0⟩ [.kWindows]]⟩).is_update_available = true :=
  (claim_C2_update_decision .kWindows ⟨1, 0, 0, 0⟩
    ⟨false, [exRel ⟨0, 9, 0, 0⟩ [.kWindows], exRel ⟨1, 0, 0, 0⟩ [.kWindows],
      exRel ⟨1, 1, 0, 0⟩ [.kWindows]]⟩ rfl).1.2 (by decide)

/-- C6: an empty document or one without a `SchemaVersion` field fails
with the missing-SchemaVersion message; a `SchemaVersion` string other
than "1.3", "1.5" or "1.6" fails with the fixed unsupported message;
exactly those three strings dispatch to the corresponding schema
parser's pipeline. -/
theorem claim_C6_schema_dispatch (doc : Json) (v0 : VersionInfo)
    (t0 : ReleaseType) (ui0 : UpdateInfo) :
    ((doc.isEmptyVal = true ∨ doc.find? "SchemaVersion" = none) →
      ParseJsonString doc v0 t0 ui0 =
        (false, [.missingSchemaVersionEntry], ui0)) ∧
    (∀ s : String, doc.isEmptyVal = false →
      doc.find? "SchemaVersion" = some (.str s) →
      s ≠ "1.3" → s ≠ "1.5" → s ≠ "1.6" →
      ParseJsonString doc v0 t0 ui0 =
        (false, [.unsupportedSchemaVersion], ui0)) ∧
    (doc.isEmptyVal = false → doc.find? "SchemaVersion" = some (.str "1.3") →
      ParseJsonString doc v0 t0 ui0 =
        runCatch ui0 (parseBranch_1_3 doc v0 ui0)) ∧
    (doc.isEmptyVal = false → doc.find? "SchemaVersion" = some (.str "1.5") →
      ParseJsonString doc v0 t0 ui0 =
        runCatch ui0 (parseBranch_1_5 doc v0 ui0)) ∧
    (doc.isEmptyVal = false → doc.find? "SchemaVersion" = some (.str "1.6") →
      ParseJsonString doc v0 t0 ui0 =
        runCatch ui0 (ParseJsonSchema_1_6 doc v0 t0 ui0)) := by
  refine ⟨?_, ?_, ?_, ?_, ?_⟩
  · rintro (he | hf)
    · simp [ParseJsonString, he, runCatch]
    · by_cases hemp : doc.isEmptyVal <;>
        simp [ParseJsonString, hemp, hf, runCatch]
  · intro s hemp hf h13 h15 h16
    simp [ParseJsonString, hemp, hf, Json.getString, h13, h15, h16, runCatch]
  · intro hemp hf
    simp [ParseJsonString, hemp, hf, Json.getString]
  · intro hemp hf
    simp [ParseJsonString, hemp, hf, Json.getString]
  · intro hemp hf
    simp [ParseJsonString, hemp, hf, Json.getString]

theorem claim_C6_schema_dispatch_witness :
    ParseJsonString (Json.obj [("Other", Json.num 1)]) ⟨0, 0, 0, 0⟩
      .kUnknown ⟨false, []⟩ =
      (false, [.missingSchemaVersionEntry], ⟨false, []⟩) ∧
    ParseJsonString (Json.obj [("SchemaVersion", Json.str "1.7")]) ⟨0, 0, 0, 0⟩
      .kUnknown ⟨false, []⟩ =
      (false, [.unsupportedSchemaVersion], ⟨false, []⟩) ∧
    ParseJsonString exDoc16 ⟨0, 0, 0, 0⟩ .kUnknown ⟨false, []⟩ =
      runCatch ⟨false, []⟩
        (ParseJsonSchema_1_6 exDoc16 ⟨0, 0, 0, 0⟩ .kUnknown ⟨false, []⟩) :=
  ⟨(claim_C6_schema_dispatch (Json.obj [("Other", Json.num 1)]) ⟨0, 0, 0, 0⟩
      .kUnknown ⟨false, []⟩).1 (Or.inr rfl),
   (claim_C6_schema_dispatch (Json.obj [("SchemaVersion", Json.str "1.7")])
      ⟨0, 0, 0, 0⟩ .kUnknown ⟨false, []⟩).2.1 "1.7" rfl rfl
      (by decide) (by decide) (by decide),
   (claim_C6_schema_dispatch exDoc16 ⟨0, 0, 0, 0⟩ .kUnknown
      ⟨false, []⟩).2.2.2.2 rfl rfl⟩

theorem listContains_of_suffix (needle hay : List Char)
    (h : needle <:+ hay) : listContains needle hay = true := by
  induction hay with
  | nil =>
    rcases h with ⟨pre, hpre⟩
    have : needle = [] := (List.append_eq_nil.1 hpre).2
    simp [listContains, this]
  | cons c rest ih =>
    rcases List.suffix_cons_iff.1 h with h1 | h2
    · subst h1
      simp [listContains, List.isPrefixOf_iff_prefix]
    · simp [listContains, ih h2]

theorem strContains_of_strEndsWith (hay needle : String)
    (h : strEndsWith hay needle = true) : strContains hay needle = true := by
  unfold strEndsWith at h
  unfold strContains
  exact listContains_of_suffix _ _ (List.isSuffixOf_iff_suffix.1 h)

/-- C1 counterexample: the filename gate is `rfind(".json") != npos`, a
substring test, not a suffix test.  The filename `"update.json.bak"`
does not end in `.json`, yet the check passes and transport is
attempted: with a failing transport the check reports the transport
error (not the URL-must-point-to-JSON message), and with a transport
that delivers a valid manifest the whole check succeeds. -/
theorem claim_C1_json_gate_counterexample :
    strEndsWith "update.json.bak" ".json" = false ∧
    CheckForUpdates .kWindows none ⟨0, 0, 0, 0⟩ ⟨0, 0, 0, 0⟩ .kUnknown
      (fun _ => (false, [.failedToLoadVersionFile], none)) ⟨1, 0, 0, 0⟩
      "update.json.bak" ⟨false, []⟩ =
      (false, [.failedToLoadVersionFile], ⟨false, []⟩) ∧
    CheckForUpdates .kWindows none ⟨0, 0, 0, 0⟩ ⟨0, 0, 0, 0⟩ .kUnknown
      (fun _ => (true, [], some exDoc16)) ⟨1, 0, 0, 0⟩
      "update.json.bak" ⟨false, []⟩ =
      (true, [], ⟨true, [exRel16]⟩) :=
  ⟨rfl, rfl, rfl⟩

/-- C1 as amended: `CheckForUpdates` fails immediately with the
URL-must-point-to-a-JSON-file message, without consulting the transport,
exactly when the filename does not *contain* `.json` as a substring;
every filename that ends in `.json` contains it, so for those the
precondition passes and the transport outcome determines the result. -/
theorem claim_C1_json_gate_amended (platform : TargetPlatform)
    (env : Option String) (v0 veq : VersionInfo) (t0 : ReleaseType)
    (fetch : Unit → Bool × List ErrMsg × Option Json)
    (product_version : VersionInfo) (name : String) (ui0 : UpdateInfo) :
    (strContains name ".json" = false →
      CheckForUpdates platform env v0 veq t0 fetch product_version name ui0 =
        (false, [.urlMustPointToAJsonFile],
          { ui0 with is_update_available := false })) ∧
    (strContains name ".json" = true →
      CheckForUpdates platform env v0 veq t0 fetch product_version name ui0 =
        checkAfterFilenameGate platform env v0 veq t0 product_version
          (fetch ()) { ui0 with is_update_available := false }) ∧
    (strEndsWith name ".json" = true → strContains name ".json" = true) := by
  refine ⟨?_, ?_, strContains_of_strEndsWith name ".json"⟩
  · intro h
    simp [CheckForUpdates, h]
  · intro h
    simp [CheckForUpdates, h]

theorem claim_C1_json_gate_amended_witness :
    CheckForUpdates .kWindows none ⟨0, 0, 0, 0⟩ ⟨0, 0, 0, 0⟩ .kUnknown
      (fun _ => (true, [], some exDoc16)) ⟨1, 0, 0, 0⟩ "nope.txt"
      ⟨true, []⟩ =
      (false, [.urlMustPointToAJsonFile], ⟨false, []⟩) ∧
    CheckForUpdates .kWindows none ⟨0, 0, 0, 0⟩ ⟨0, 0, 0, 0⟩ .kUnknown
      (fun _ => (true, [], some exDoc16)) ⟨1, 0, 0, 0⟩ "v.json"
      ⟨true, []⟩ =
      checkAfterFilenameGate .kWindows none ⟨0, 0, 0, 0⟩ ⟨0, 0, 0, 0⟩
        .kUnknown ⟨1, 0, 0, 0⟩ (true, [], some exDoc16) ⟨false, []⟩ :=
  ⟨(claim_C1_json_gate_amended .kWindows none ⟨0, 0, 0, 0⟩ ⟨0, 0, 0, 0⟩
      .kUnknown (fun _ => (true, [], some exDoc16)) ⟨1, 0, 0, 0⟩
      "nope.txt" ⟨true, []⟩).1 rfl,
   (claim_C1_json_gate_amended .kWindows none ⟨0, 0, 0, 0⟩ ⟨0, 0, 0, 0⟩
      .kUnknown (fun _ => (true, [], some exDoc16)) ⟨1, 0, 0, 0⟩
      "v.json" ⟨true, []⟩).2.1
      ((claim_C1_json_gate_amended .kWindows none ⟨0, 0, 0, 0⟩ ⟨0, 0, 0, 0⟩
        .kUnknown (fun _ => (true, [], some exDoc16)) ⟨1, 0, 0, 0⟩
        "v.json" ⟨true, []⟩).2.2 rfl)⟩

end UpdateCheck
